import Mathlib

/-!
Verification development for the del-game epistemic reasoning engine.

The definitions below are a shallow embedding of the Python sources:
agents hold a belief state made of possible worlds (role assignments over
agent ids) and a suspicion map; events are dispatched by visibility and
processed either as hard knowledge (FACT, world elimination) or soft
belief (UNCERTAIN, suspicion adjustment).  Python dicts are embedded as
association lists with first-match lookup, machine reals for suspicion as
rationals, and the mutable update methods as pure state-passing functions.
-/

namespace DelGame

/-- Agent identifiers are plain strings, as in the source. -/
abbrev AgentId := String

/-- The role of an agent; the source uses the strings "good" and "bad". -/
inductive Role where
  | good : Role
  | bad : Role
deriving DecidableEq, Repr

/-- First-match association-list lookup, embedding Python dict access via get
(returns none when the key is absent). -/
def assocLookup {β : Type} : List (AgentId × β) → AgentId → Option β
  | [], _ => none
  | (k, v) :: rest, a => if k = a then some v else assocLookup rest a

/-- A possible world: a total role assignment stored as an association list
over agent ids (the source stores a Python dict id to role). -/
abbrev WorldS := List (AgentId × Role)

/-- Embeds world_state.get(aid) from agent.py. -/
def lookupRole (w : WorldS) (aid : AgentId) : Option Role := assocLookup w aid

/-- Suspicion lookup, embedding access to the sus dict of an NPC. -/
def susLookup (sus : List (AgentId × ℚ)) (aid : AgentId) : Option ℚ := assocLookup sus aid

/-- Event visibility classes from event.py: "private", "witnessed", "public". -/
inductive Vis where
  | priv : Vis
  | witnessed : Vis
  | pub : Vis
deriving DecidableEq, Repr

/-- Action kinds of events, from event.py and world.py ("vote_result" is the
synthetic meeting-resolution action). -/
inductive ActionT where
  | enter : ActionT
  | sabo : ActionT
  | report : ActionT
  | kill : ActionT
  | say : ActionT
  | voteResult : ActionT
deriving DecidableEq, Repr

/-- A structured claim, from statement.py. -/
structure Statement where
  predicate : String
  subject : AgentId
  value : String
  speaker : AgentId
deriving DecidableEq, Repr

/-- An event record, from event.py; the vote_result payload fields
(voted_out_id, game_ended, votes) are attached post-hoc in the source and
are embedded here as ordinary fields with the source defaults. -/
structure Event where
  action : ActionT
  actor : AgentId
  location : Option String
  witnesses : List AgentId
  visibility : Vis
  statement : Option Statement
  votedOutId : Option AgentId
  gameEnded : Bool
  votes : List (AgentId × Nat)
deriving DecidableEq, Repr

/-- Provenance of a MemoryItem, from memory.py: "observation" or "hearsay". -/
inductive SourceT where
  | observation : SourceT
  | hearsay : SourceT
deriving DecidableEq, Repr

/-- Certainty levels from memory.py. -/
inductive Certainty where
  | FACT : Certainty
  | UNCERTAIN : Certainty
  | VERIFIED : Certainty
  | DISPROVED : Certainty
deriving DecidableEq, Repr

/-- MemoryItem._determine_initial_certainty from memory.py: observation gives
FACT, hearsay gives UNCERTAIN. -/
def determineInitialCertainty : SourceT → Certainty
  | SourceT.observation => Certainty.FACT
  | SourceT.hearsay => Certainty.UNCERTAIN

/-- A MemoryItem from memory.py: an event wrapped with provenance. -/
structure MemoryItem where
  event : Event
  sourceType : SourceT
  sourceId : Option AgentId
deriving DecidableEq, Repr

/-- MemoryItem construction; certainty is derived from the source type. -/
def mkMemoryItem (ev : Event) (st : SourceT) (sid : Option AgentId) : MemoryItem :=
  ⟨ev, st, sid⟩

/-- The derived certainty of a MemoryItem, as set in MemoryItem.__init__. -/
def MemoryItem.certainty (mi : MemoryItem) : Certainty :=
  determineInitialCertainty mi.sourceType

/-- The kill branch of Agent._update_belief_hard_knowledge: keep only the
worlds in which the actor is bad. -/
def killUpdate (actor : AgentId) (worlds : List WorldS) : List WorldS :=
  if worlds = [] then worlds
  else worlds.filter (fun w => lookupRole w actor = some Role.bad)

/-- The progressive per-entry filtering loop of the self-voted-out case in
Agent._update_belief_hard_knowledge (agent.py lines 110-124): for each entry
of the votes tally with a positive count whose id resolves to an alive agent,
discard the worlds in which that id is good, breaking out as soon as the
running set becomes empty. -/
def progressiveFilter (aliveInRoster : AgentId → Bool) :
    List (AgentId × Nat) → List WorldS → List WorldS
  | [], worlds => worlds
  | (voterId, voteCount) :: rest, worlds =>
    if 0 < voteCount ∧ aliveInRoster voterId = true then
      let filtered := worlds.filter (fun w => ¬ lookupRole w voterId = some Role.good)
      if filtered = [] then filtered
      else progressiveFilter aliveInRoster rest filtered
    else progressiveFilter aliveInRoster rest worlds

/-- The vote_result branch of Agent._update_belief_hard_knowledge
(agent.py lines 91-144). -/
def voteResultUpdate (selfId : AgentId) (selfRole : Role) (votedOut : Option AgentId)
    (gameEnded : Bool) (votes : List (AgentId × Nat)) (aliveInRoster : AgentId → Bool)
    (worlds : List WorldS) : List WorldS :=
  match votedOut with
  | none => worlds
  | some vo =>
    if vo = selfId ∧ selfRole = Role.good then
      if worlds = [] then worlds
      else if progressiveFilter aliveInRoster votes worlds = [] then worlds
      else progressiveFilter aliveInRoster votes worlds
    else if gameEnded = false then
      if worlds = [] then worlds
      else if worlds.filter (fun w => lookupRole w vo = some Role.good) = [] then worlds
      else worlds.filter (fun w => lookupRole w vo = some Role.good)
    else worlds

/-- Agent._update_belief_hard_knowledge: dispatch on the event action.
Only kill and vote_result eliminate worlds; enter, report, sabo and say
leave the worlds untouched. -/
def hardUpdateWorlds (selfId : AgentId) (selfRole : Role) (ev : Event)
    (aliveInRoster : AgentId → Bool) (worlds : List WorldS) : List WorldS :=
  match ev.action with
  | ActionT.kill => killUpdate ev.actor worlds
  | ActionT.voteResult =>
    voteResultUpdate selfId selfRole ev.votedOutId ev.gameEnded ev.votes aliveInRoster worlds
  | _ => worlds

/-- NPC.update_sus from agent.py: add the delta at the given id (when it is
tracked) and clamp the value to be non-negative. -/
def updateSus (sus : List (AgentId × ℚ)) (aid : AgentId) (delta : ℚ) :
    List (AgentId × ℚ) :=
  if (susLookup sus aid).isSome then
    sus.map (fun p => if p.1 = aid then (p.1, max 0 (p.2 + delta)) else p)
  else sus

/-- Agent._update_belief_soft_belief: the UNCERTAIN branch, which adjusts
suspicion scores and never touches the worlds.  A say event whose statement
claims a role of "bad" raises the suspicion of the subject by 0.1; a sabo
event raises the suspicion of the actor by 0.2; both only when the id is
tracked and differs from the receiver. -/
def softUpdateSus (selfId : AgentId) (ev : Event) (sus : List (AgentId × ℚ)) :
    List (AgentId × ℚ) :=
  match ev.action with
  | ActionT.say =>
    match ev.statement with
    | some st =>
      if st.predicate = "role" ∧ st.value = "bad" then
        if (susLookup sus st.subject).isSome ∧ st.subject ≠ selfId then
          updateSus sus st.subject (1 / 10)
        else sus
      else sus
    | none => sus
  | ActionT.sabo =>
    if (susLookup sus ev.actor).isSome ∧ ev.actor ≠ selfId then
      updateSus sus ev.actor (2 / 10)
    else sus
  | _ => sus

/-- Agent.update_belief: no update when the worlds list is empty; otherwise
branch on the certainty of the memory item: FACT eliminates worlds,
UNCERTAIN adjusts suspicion, the reserved levels do nothing. -/
def updateBelief (selfId : AgentId) (selfRole : Role) (mi : MemoryItem)
    (aliveInRoster : AgentId → Bool) (worlds : List WorldS)
    (sus : List (AgentId × ℚ)) : List WorldS × List (AgentId × ℚ) :=
  if worlds = [] then (worlds, sus)
  else
    match mi.certainty with
    | Certainty.FACT => (hardUpdateWorlds selfId selfRole mi.event aliveInRoster worlds, sus)
    | Certainty.UNCERTAIN => (worlds, softUpdateSus selfId mi.event sus)
    | _ => (worlds, sus)

/-- The role-relevant data of a roster member, as consumed by
World._initialize_all_worlds. -/
structure RosterEntry where
  id : AgentId
  role : Role
deriving DecidableEq, Repr

/-- The list of ids of the whole roster. -/
def rosterIds (roster : List RosterEntry) : List AgentId :=
  roster.map (fun a => a.id)

/-- The ids of the bad agents in the roster. -/
def badIdsOf (roster : List RosterEntry) : List AgentId :=
  (roster.filter (fun a => a.role = Role.bad)).map (fun a => a.id)

/-- One hypothesis world built by a good agent: the members of comb are bad,
everyone else (the agent itself first of all) is good, mirroring the
world_state construction loop of World._initialize_all_worlds. -/
def goodWorldOf (allIds : List AgentId) (selfId : AgentId) (comb : List AgentId) : WorldS :=
  allIds.map (fun aid =>
    (aid, if aid = selfId then Role.good
          else if aid ∈ comb then Role.bad else Role.good))

/-- The single ground-truth world of a bad agent: every member of the bad set
is bad, everyone else good. -/
def groundTruthWorld (roster : List RosterEntry) : WorldS :=
  (rosterIds roster).map (fun aid =>
    (aid, if aid ∈ badIdsOf roster then Role.bad else Role.good))

/-- World._initialize_all_worlds, per agent: a good agent enumerates every
size-k choice of bad agents among the other ids (k the true number of bad
agents); with k = 0 it keeps the single all-good world; a bad agent keeps
exactly the ground-truth world. -/
def initWorldsFor (roster : List RosterEntry) (ag : RosterEntry) : List WorldS :=
  let allIds := rosterIds roster
  let numBad := (badIdsOf roster).length
  match ag.role with
  | Role.good =>
    let otherIds := allIds.filter (fun aid => aid ≠ ag.id)
    if 0 < numBad ∧ numBad ≤ otherIds.length then
      (List.sublistsLen numBad otherIds).map (goodWorldOf allIds ag.id)
    else if numBad = 0 then
      [allIds.map (fun aid => (aid, Role.good))]
    else []
  | Role.bad => [groundTruthWorld roster]

/-- The id and aliveness of a roster member, the data the dispatch pipeline
of World.create_event consults. -/
structure AgentR where
  id : AgentId
  alive : Bool
deriving DecidableEq, Repr

/-- World._get_agent_by_id succeeds: the id is present in the roster. -/
def inRoster (roster : List AgentR) (aid : AgentId) : Bool :=
  roster.any (fun a => a.id = aid)

/-- One MemoryItem delivery produced by the dispatch pipeline: the recipient,
the provenance tag, and the hearsay source. -/
structure Delivery where
  recipient : AgentId
  sourceType : SourceT
  sourceId : Option AgentId
deriving DecidableEq, Repr

/-- The visibility rules of World.create_event: private delivers one
observation item to the actor; witnessed delivers observation items to the
actor and to every witness id that resolves; public delivers to every alive
agent, the actor getting an observation and everyone else hearsay sourced at
the actor. -/
def dispatchDeliveries (roster : List AgentR) (visibility : Vis) (actor : AgentId)
    (witnesses : List AgentId) : List Delivery :=
  match visibility with
  | Vis.priv =>
    if inRoster roster actor then [⟨actor, SourceT.observation, none⟩] else []
  | Vis.witnessed =>
    (if inRoster roster actor then [⟨actor, SourceT.observation, none⟩] else []) ++
      witnesses.filterMap (fun w =>
        if inRoster roster w then some ⟨w, SourceT.observation, none⟩ else none)
  | Vis.pub =>
    (roster.filter (fun a => a.alive)).map (fun a =>
      if a.id = actor then ⟨a.id, SourceT.observation, none⟩
      else ⟨a.id, SourceT.hearsay, some actor⟩)

/-- A full agent of the simulation: identity, role, aliveness, location and
belief state (worlds and suspicion map). -/
structure SimAgent where
  id : AgentId
  role : Role
  alive : Bool
  location : Option String
  worlds : List WorldS
  sus : List (AgentId × ℚ)
deriving DecidableEq, Repr

/-- The world aggregate relevant to the claims: the roster, the room names,
the room connection pairs, the global event history, and the cached win/loss
result set by World._check_game_over. -/
structure SimState where
  agents : List SimAgent
  rooms : List String
  conns : List (String × String)
  eventLog : List Event
  result : Option String
deriving DecidableEq, Repr

/-- Projection of the roster to the data the dispatch pipeline reads. -/
def toAgentR (agents : List SimAgent) : List AgentR :=
  agents.map (fun a => ⟨a.id, a.alive⟩)

/-- The aliveness test used by the vote_result belief update: the id resolves
through World._get_agent_by_id and the agent state is "alive". -/
def aliveInState (agents : List SimAgent) (aid : AgentId) : Bool :=
  match agents.find? (fun a => a.id = aid) with
  | some a => a.alive
  | none => false

/-- Hand one delivery to its recipient: the recipient appends the memory item
and runs Agent.update_belief on its own belief state. -/
def applyDelivery (agents : List SimAgent) (ev : Event) (d : Delivery) : List SimAgent :=
  agents.map (fun a =>
    if a.id = d.recipient then
      let updated := updateBelief a.id a.role (mkMemoryItem ev d.sourceType d.sourceId)
        (aliveInState agents) a.worlds a.sus
      { a with worlds := updated.1, sus := updated.2 }
    else a)

/-- Hand a list of deliveries to their recipients in order. -/
def applyDeliveries (agents : List SimAgent) (ev : Event) (dels : List Delivery) :
    List SimAgent :=
  dels.foldl (fun acc d => applyDelivery acc ev d) agents

/-- Event construction with the defaults of Event.__init__. -/
def mkEvent (action : ActionT) (actor : AgentId) (location : Option String)
    (witnesses : List AgentId) (visibility : Vis) (statement : Option Statement) : Event :=
  { action := action, actor := actor, location := location, witnesses := witnesses,
    visibility := visibility, statement := statement, votedOutId := none,
    gameEnded := false, votes := [] }

/-- World.create_event: append the event to the global history and run the
visibility pipeline, each recipient updating its own belief state. -/
def createEvent (s : SimState) (action : ActionT) (actor : AgentId)
    (location : Option String) (witnesses : List AgentId) (visibility : Vis)
    (statement : Option Statement) : Event × SimState :=
  let ev := mkEvent action actor location witnesses visibility statement
  let dels := dispatchDeliveries (toAgentR s.agents) visibility actor witnesses
  let agents1 := applyDeliveries s.agents ev dels
  (ev, { s with agents := agents1, eventLog := s.eventLog ++ [ev] })

/-- The requests the action layer receives (report and the behavior states
are outside the claims handled here). -/
inductive ActReq where
  | enter : String → ActReq
  | kill : AgentId → ActReq
  | sabo : ActReq
  | say : String → AgentId → String → ActReq
deriving DecidableEq, Repr

/-- The visibility computation shared by enter, kill and sabo in actions.py:
witnessed when the witness list is non-empty, otherwise private. -/
def witnessVisibility (witnesses : List AgentId) : Vis :=
  if witnesses = [] then Vis.priv else Vis.witnessed

/-- The mutation part of Actions.enter after validation: move the actor, then
create the event witnessed by the alive agents at the destination. -/
def enterMove (s : SimState) (actorId : AgentId) (target : String) :
    Option Event × SimState :=
  let moved := s.agents.map (fun a =>
    if a.id = actorId then { a with location := some target } else a)
  let witnesses := (moved.filter (fun a =>
    a.alive = true ∧ a.location = some target ∧ a.id ≠ actorId)).map (fun a => a.id)
  let s1 : SimState := { s with agents := moved }
  let res := createEvent s1 ActionT.enter actorId (some target) witnesses
    (witnessVisibility witnesses) none
  (some res.1, res.2)

/-- The mutation part of Actions.kill after validation: the event is created
and dispatched while the target is still alive, then the target dies. -/
def killDo (s : SimState) (actorId : AgentId) (actorA : SimAgent) (targetId : AgentId) :
    Option Event × SimState :=
  let witnesses := (s.agents.filter (fun a =>
    a.alive = true ∧ a.location = actorA.location ∧ a.id ≠ actorId ∧ a.id ≠ targetId)).map
      (fun a => a.id)
  let res := createEvent s ActionT.kill actorId actorA.location witnesses
    (witnessVisibility witnesses) none
  let s2 := res.2
  let agents2 := s2.agents.map (fun a =>
    if a.id = targetId then { a with alive := false } else a)
  (some res.1, { s2 with agents := agents2 })

/-- Actions.sabo: witnessed by the alive agents sharing the actor location,
private otherwise; never public. -/
def saboDo (s : SimState) (actorId : AgentId) (actorA : SimAgent) :
    Option Event × SimState :=
  let witnesses := (s.agents.filter (fun a =>
    a.alive = true ∧ a.location = actorA.location ∧ a.id ≠ actorId)).map (fun a => a.id)
  let res := createEvent s ActionT.sabo actorId actorA.location witnesses
    (witnessVisibility witnesses) none
  (some res.1, res.2)

/-- Actions.say: a public event carrying the statement. -/
def sayDo (s : SimState) (actorId : AgentId) (actorA : SimAgent) (pred : String)
    (subj : AgentId) (value : String) : Option Event × SimState :=
  let st : Statement := ⟨pred, subj, value, actorId⟩
  let witnesses := (s.agents.filter (fun a =>
    a.alive = true ∧ a.id ≠ actorId)).map (fun a => a.id)
  let res := createEvent s ActionT.say actorId actorA.location witnesses Vis.pub (some st)
  (some res.1, res.2)

/-- Actions.apply and the validation prefixes of Actions.enter and
Actions.kill: a dead (or unresolvable) actor yields no event and no state
change; enter rejects an unknown target room and a room that is not directly
connected to the current location; kill rejects a missing or dead target.
All rejections return the state unchanged. -/
def applyAction (s : SimState) (actorId : AgentId) (req : ActReq) :
    Option Event × SimState :=
  match s.agents.find? (fun a => a.id = actorId) with
  | none => (none, s)
  | some actorA =>
    if actorA.alive = false then (none, s)
    else
      match req with
      | ActReq.enter target =>
        if s.rooms.contains target = false then (none, s)
        else
          match actorA.location with
          | some loc =>
            if s.conns.contains (loc, target) = false then (none, s)
            else enterMove s actorId target
          | none => enterMove s actorId target
      | ActReq.kill targetId =>
        match s.agents.find? (fun a => a.id = targetId) with
        | none => (none, s)
        | some t =>
          if t.alive = false then (none, s)
          else killDo s actorId actorA targetId
      | ActReq.sabo => saboDo s actorId actorA
      | ActReq.say pred subj value => sayDo s actorId actorA pred subj value

/-- World._check_game_over: compare alive counts by role; when no condition
is met the cached result stays as it is (the source leaves self.result
untouched). -/
def checkGameOver (agents : List SimAgent) (cached : Option String) : Option String :=
  let aliveA := agents.filter (fun a => a.alive)
  let numGood := (aliveA.filter (fun a => a.role = Role.good)).length
  let numBad := (aliveA.filter (fun a => a.role = Role.bad)).length
  if numGood = 0 ∨ (numGood ≤ numBad ∧ 0 < numBad) then some "Bad agent(s) win"
  else if numBad = 0 then some "Good agents win"
  else cached

/-- Mark the voted-out agent dead, as the result phase of
World.update_meeting does first. -/
def markAgentDead (agents : List SimAgent) (vo : AgentId) : List SimAgent :=
  agents.map (fun a => if a.id = vo then { a with alive := false } else a)

/-- Whether every dead agent is bad in the world, the test of the secondary
elimination pass of World.update_meeting. -/
def allDeadBad (deadIds : List AgentId) (w : WorldS) : Bool :=
  deadIds.all (fun d => lookupRole w d = some Role.bad)

/-- The per-agent secondary elimination pass of World.update_meeting: drop
the worlds in which all dead agents are simultaneously bad, unless that
would empty the set. -/
def secondaryElimination (deadIds : List AgentId) (worlds : List WorldS) : List WorldS :=
  if worlds = [] then worlds
  else if worlds.filter (fun w => !(allDeadBad deadIds w)) = [] then worlds
  else worlds.filter (fun w => !(allDeadBad deadIds w))

/-- The result phase of World.update_meeting (world.py lines 483-542) when a
meeting result is present and resolves in the roster: mark the voted-out
agent dead; read game_ended from the cached result (World.game_over only
tests whether self.result is set); build the public vote_result event; hand
an observation-tagged MemoryItem directly to every agent that is alive or
just ejected (the event is not routed through World.create_event and is not
appended to the history); finally run the secondary elimination pass.
Returns the new state, the event, and the deliveries made. -/
def resolveMeeting (s : SimState) (reporterId : AgentId)
    (votes : List (AgentId × Nat)) (meetingResult : Option AgentId) :
    SimState × Option Event × List Delivery :=
  match meetingResult with
  | none => (s, none, [])
  | some vo =>
    match s.agents.find? (fun a => a.id = vo) with
    | none => (s, none, [])
    | some _ =>
      let agents1 := markAgentDead s.agents vo
      let gameEnded := s.result.isSome
      let recipients := agents1.filter (fun a => a.alive = true ∨ a.id = vo)
      let loc := match recipients with
        | r :: _ => r.location
        | [] => none
      let ev : Event :=
        { action := ActionT.voteResult, actor := reporterId, location := loc,
          witnesses := recipients.map (fun a => a.id), visibility := Vis.pub,
          statement := none, votedOutId := some vo, gameEnded := gameEnded,
          votes := votes }
      let dels := recipients.map (fun a => Delivery.mk a.id SourceT.observation none)
      let agents2 := applyDeliveries agents1 ev dels
      let agents3 :=
        if gameEnded then agents2
        else
          let deadIds := (agents2.filter (fun a => a.alive = false)).map (fun a => a.id)
          let numBadAlive := (agents2.filter (fun a =>
            a.alive = true ∧ a.role = Role.bad)).length
          if numBadAlive ≤ deadIds.length ∧ 0 < numBadAlive then
            agents2.map (fun a =>
              if a.alive then { a with worlds := secondaryElimination deadIds a.worlds }
              else a)
          else agents2
      ({ s with agents := agents3 }, some ev, dels)

/-- The keep-predicate equivalent to the progressive tally filtering: a world
survives when no tally entry with a positive count and an alive id marks
that id good in the world. -/
def survivesTally (aliveInRoster : AgentId → Bool) (votes : List (AgentId × Nat))
    (w : WorldS) : Bool :=
  votes.all (fun p =>
    if 0 < p.2 ∧ aliveInRoster p.1 = true then !(lookupRole w p.1 = some Role.good)
    else true)

/-- Modelled from the spec: the self-voted-out rule of section 4.3 case (a)
as worded there, iterating the voters who cast ballots (the per-voter
attribution the spec asks for), rather than the per-candidate tally the
source event carries.  Each alive voter in turn discards the worlds in which
that voter is good, the loop stops early when the running set would become
empty, and the pre-filter set is retained rather than an empty one. -/
def claimVoterElim (ballots : List (AgentId × AgentId))
    (aliveInRoster : AgentId → Bool) (worlds : List WorldS) : List WorldS :=
  if progressiveFilter aliveInRoster (ballots.map (fun p => (p.1, 1))) worlds = [] then worlds
  else progressiveFilter aliveInRoster (ballots.map (fun p => (p.1, 1))) worlds

/-- Concrete aliveness oracle for the vote_result examples: the agents a, b,
c and d are alive, everyone else (in particular me) is not. -/
def exAlive : AgentId → Bool := fun aid => aid ∈ ["a", "b", "c", "d"]

/-- Aliveness oracle resolving nobody. -/
def exAliveNone : AgentId → Bool := fun _ => false

/-- Example world: a is the single bad agent. -/
def wwA : WorldS :=
  [("me", Role.good), ("a", Role.bad), ("b", Role.good), ("c", Role.good), ("d", Role.good)]

/-- Example world: b is the single bad agent. -/
def wwB : WorldS :=
  [("me", Role.good), ("a", Role.good), ("b", Role.bad), ("c", Role.good), ("d", Role.good)]

/-- Example world: c is the single bad agent. -/
def wwC : WorldS :=
  [("me", Role.good), ("a", Role.good), ("b", Role.good), ("c", Role.bad), ("d", Role.good)]

/-- Example world: d is the single bad agent. -/
def wwD : WorldS :=
  [("me", Role.good), ("a", Role.good), ("b", Role.good), ("c", Role.good), ("d", Role.bad)]

/-- Example belief state of the good agent me with one bad agent among four
others. -/
def exWs : List WorldS := [wwA, wwB, wwC, wwD]

/-- Concrete vote_result event for the self-voted-out scenario: me was voted
out by the ballots of a, b and me (a and b voted for me, me voted for c), so
the per-candidate tally lists me with 2 votes and c with 1. -/
def cexVoteEvent : Event :=
  { action := ActionT.voteResult, actor := "r", location := some "E", witnesses := [],
    visibility := Vis.pub, statement := none, votedOutId := some "me",
    gameEnded := false, votes := [("me", 2), ("c", 1)] }

/-- The ballots behind cexVoteEvent, attributed per voter. -/
def cexBallots : List (AgentId × AgentId) := [("a", "me"), ("b", "me"), ("me", "c")]

/-- Concrete kill event by the agent a. -/
def cexKillEvent : Event :=
  mkEvent ActionT.kill "a" (some "A") ["w"] Vis.witnessed none

/-- A one-world belief state in which the killer a is good. -/
def cexKillWorlds : List WorldS := [[("a", Role.good), ("b", Role.bad)]]

/-- Concrete roster of three good agents and one bad agent. -/
def roster0 : List RosterEntry :=
  [⟨"g1", Role.good⟩, ⟨"g2", Role.good⟩, ⟨"g3", Role.good⟩, ⟨"b1", Role.bad⟩]

/-- SimAgent builder with an empty suspicion map. -/
def mkSA (i : AgentId) (r : Role) (al : Bool) (loc : Option String)
    (ws : List WorldS) : SimAgent :=
  { id := i, role := r, alive := al, location := loc, worlds := ws, sus := [] }

/-- Concrete meeting state: the roster0 agents, all alive in the meeting room,
each holding its initial belief state, with no cached game-over result. -/
def sMeet : SimState :=
  { agents := [mkSA "g1" Role.good true (some "E") (initWorldsFor roster0 ⟨"g1", Role.good⟩),
      mkSA "g2" Role.good true (some "E") (initWorldsFor roster0 ⟨"g2", Role.good⟩),
      mkSA "g3" Role.good true (some "E") (initWorldsFor roster0 ⟨"g3", Role.good⟩),
      mkSA "b1" Role.bad true (some "E") (initWorldsFor roster0 ⟨"b1", Role.bad⟩)],
    rooms := ["E"], conns := [], eventLog := [], result := none }

/-- The vote_result event produced by resolving the sMeet meeting against the
tally that ejects b1 unanimously. -/
def cexResolveEvent : Event :=
  { action := ActionT.voteResult, actor := "g1", location := some "E",
    witnesses := ["g1", "g2", "g3", "b1"], visibility := Vis.pub, statement := none,
    votedOutId := some "b1", gameEnded := false, votes := [("b1", 3)] }

/-- Concrete statement: z claims that y is bad. -/
def st0 : Statement := ⟨"role", "y", "bad", "z"⟩

/-- Concrete public say event carrying st0. -/
def sayEv0 : Event := mkEvent ActionT.say "z" (some "B") [] Vis.pub (some st0)

/-- Concrete sabo event by z. -/
def saboEv0 : Event := mkEvent ActionT.sabo "z" (some "B") [] Vis.witnessed none

/-- Concrete suspicion map tracking me, y and z at score zero. -/
def sus0 : List (AgentId × ℚ) := [("me", 0), ("y", 0), ("z", 0)]

/-- Concrete action-layer state: d1 is dead, p1 and p2 are alive in rooms A
and C; A connects to B only. -/
def sAct : SimState :=
  { agents := [mkSA "d1" Role.good false (some "A") [],
      mkSA "p1" Role.bad true (some "A") [],
      mkSA "p2" Role.good true (some "C") []],
    rooms := ["A", "B", "C"], conns := [("A", "B"), ("B", "A")],
    eventLog := [], result := none }

/-- Concrete dispatch roster: g1 and g2 alive, g3 dead. -/
def rosterR0 : List AgentR := [⟨"g1", true⟩, ⟨"g2", true⟩, ⟨"g3", false⟩]

lemma assocLookup_map_pair {β : Type} (f : AgentId → β) :
    ∀ (l : List AgentId) (x : AgentId), x ∈ l →
      assocLookup (l.map (fun a => (a, f a))) x = some (f x) := by
  intro l
  induction l with
  | nil => intro x hx; simp at hx
  | cons y t ih =>
    intro x hx
    rcases List.mem_cons.mp hx with h1 | h2
    · subst h1; simp [assocLookup]
    · by_cases h : y = x
      · subst h; simp [assocLookup]
      · simp only [List.map_cons, assocLookup, if_neg h]
        exact ih x h2

lemma progressiveFilter_subset (aliveR : AgentId → Bool) :
    ∀ (votes : List (AgentId × Nat)) (worlds : List WorldS) (w : WorldS),
      w ∈ progressiveFilter aliveR votes worlds → w ∈ worlds := by
  intro votes
  induction votes with
  | nil => intro worlds w hw; simpa [progressiveFilter] using hw
  | cons p rest ih =>
    intro worlds w hw
    obtain ⟨vid, cnt⟩ := p
    simp only [progressiveFilter] at hw
    by_cases hc : 0 < cnt ∧ aliveR vid = true
    · rw [if_pos hc] at hw
      by_cases hf : worlds.filter (fun w => ¬ lookupRole w vid = some Role.good) = []
      · rw [if_pos hf, hf] at hw
        simp at hw
      · rw [if_neg hf] at hw
        exact (List.mem_filter.mp (ih _ _ hw)).1
    · rw [if_neg hc] at hw
      exact ih _ _ hw

lemma progressiveFilter_length_le (aliveR : AgentId → Bool) :
    ∀ (votes : List (AgentId × Nat)) (worlds : List WorldS),
      (progressiveFilter aliveR votes worlds).length ≤ worlds.length := by
  intro votes
  induction votes with
  | nil => intro worlds; simp [progressiveFilter]
  | cons p rest ih =>
    intro worlds
    obtain ⟨vid, cnt⟩ := p
    simp only [progressiveFilter]
    by_cases hc : 0 < cnt ∧ aliveR vid = true
    · rw [if_pos hc]
      by_cases hf : worlds.filter (fun w => ¬ lookupRole w vid = some Role.good) = []
      · rw [if_pos hf, hf]; simp
      · rw [if_neg hf]
        exact le_trans (ih _) (List.length_filter_le _ _)
    · rw [if_neg hc]; exact ih worlds

lemma progressiveFilter_eq_filter (aliveR : AgentId → Bool) :
    ∀ (votes : List (AgentId × Nat)) (worlds : List WorldS),
      progressiveFilter aliveR votes worlds = worlds.filter (survivesTally aliveR votes) := by
  intro votes
  induction votes with
  | nil =>
    intro worlds
    simp only [progressiveFilter]
    symm
    apply List.filter_eq_self.mpr
    intro a _
    simp [survivesTally]
  | cons p rest ih =>
    intro worlds
    obtain ⟨vid, cnt⟩ := p
    simp only [progressiveFilter]
    by_cases hc : 0 < cnt ∧ aliveR vid = true
    · have hsplit : worlds.filter (survivesTally aliveR ((vid, cnt) :: rest)) =
          (worlds.filter (fun w => ¬ lookupRole w vid = some Role.good)).filter
            (survivesTally aliveR rest) := by
        rw [List.filter_filter]
        apply List.filter_congr
        intro w _
        simp [survivesTally, hc, Bool.and_comm]
      rw [if_pos hc]
      by_cases hf : worlds.filter (fun w => ¬ lookupRole w vid = some Role.good) = []
      · rw [if_pos hf, hsplit, hf]
        simp
      · rw [if_neg hf, hsplit]
        exact ih _
    · rw [if_neg hc, ih]
      apply List.filter_congr
      intro w _
      simp only [survivesTally, List.all_cons, if_neg hc, Bool.true_and]

lemma assocLookup_mapIf {β : Type} (g : β → β) (aid : AgentId) :
    ∀ (l : List (AgentId × β)),
      assocLookup (l.map (fun p => if p.1 = aid then (p.1, g p.2) else p)) aid =
        (assocLookup l aid).map g := by
  intro l
  induction l with
  | nil => simp [assocLookup]
  | cons p t ih =>
    obtain ⟨k, v⟩ := p
    simp only [List.map_cons]
    by_cases h : k = aid
    · subst h
      rw [if_pos rfl]
      simp only [assocLookup, if_pos rfl]
      rfl
    · rw [if_neg h]
      simp only [assocLookup, if_neg h]
      exact ih

lemma assocLookup_mapIf_ne {β : Type} (g : β → β) (aid other : AgentId)
    (hne : other ≠ aid) :
    ∀ (l : List (AgentId × β)),
      assocLookup (l.map (fun p => if p.1 = aid then (p.1, g p.2) else p)) other =
        assocLookup l other := by
  intro l
  induction l with
  | nil => simp [assocLookup]
  | cons p t ih =>
    obtain ⟨k, v⟩ := p
    simp only [List.map_cons]
    by_cases ha : k = aid
    · subst ha
      rw [if_pos rfl]
      have hk : ¬ k = other := fun he => hne he.symm
      simp only [assocLookup, if_neg hk]
      exact ih
    · rw [if_neg ha]
      by_cases hk : k = other
      · subst hk
        simp [assocLookup]
      · simp only [assocLookup, if_neg hk]
        exact ih

lemma susLookup_updateSus_self (sus : List (AgentId × ℚ)) (aid : AgentId)
    (delta v : ℚ) (h : susLookup sus aid = some v) :
    susLookup (updateSus sus aid delta) aid = some (max 0 (v + delta)) := by
  unfold updateSus
  rw [h]
  simp only [Option.isSome_some, if_true]
  have := assocLookup_mapIf (fun x => max 0 (x + delta)) aid sus
  unfold susLookup at h ⊢
  rw [this, h]
  rfl

lemma susLookup_updateSus_other (sus : List (AgentId × ℚ)) (aid other : AgentId)
    (delta : ℚ) (hne : other ≠ aid) :
    susLookup (updateSus sus aid delta) other = susLookup sus other := by
  unfold updateSus
  by_cases hs : (susLookup sus aid).isSome
  · rw [if_pos hs]
    exact assocLookup_mapIf_ne (fun x => max 0 (x + delta)) aid other hne sus
  · rw [if_neg hs]

lemma updateSus_nonneg (sus : List (AgentId × ℚ)) (aid : AgentId) (delta : ℚ)
    (h : ∀ p ∈ sus, 0 ≤ p.2) : ∀ p ∈ updateSus sus aid delta, 0 ≤ p.2 := by
  intro p hp
  unfold updateSus at hp
  by_cases hs : (susLookup sus aid).isSome
  · rw [if_pos hs] at hp
    rcases List.mem_map.mp hp with ⟨q, hq, rfl⟩
    by_cases hk : q.1 = aid
    · rw [if_pos hk]
      exact le_max_left 0 _
    · rw [if_neg hk]
      exact h q hq
  · rw [if_neg hs] at hp
    exact h p hp

lemma susLookup_updateSus_mono (sus : List (AgentId × ℚ)) (aid other : AgentId)
    (delta v : ℚ) (hd : 0 ≤ delta) (h : susLookup sus other = some v) :
    ∃ v2, susLookup (updateSus sus aid delta) other = some v2 ∧ v ≤ v2 := by
  by_cases hk : other = aid
  · subst hk
    refine ⟨max 0 (v + delta), susLookup_updateSus_self sus other delta v h, ?_⟩
    calc v ≤ v + delta := by linarith
    _ ≤ max 0 (v + delta) := le_max_right 0 _
  · exact ⟨v, (susLookup_updateSus_other sus aid other delta hk).trans h, le_refl v⟩

lemma filterMap_resolve {α β : Type} (p : α → Bool) (f : α → β) :
    ∀ (l : List α), (∀ x ∈ l, p x = true) →
      (l.filterMap (fun x => if p x then some (f x) else none)) = l.map f := by
  intro l
  induction l with
  | nil => intro; rfl
  | cons a t ih =>
    intro h
    have ha := h a (List.mem_cons_self a t)
    simp only [List.filterMap_cons, ha, if_true, List.map_cons]
    rw [ih (fun x hx => h x (List.mem_cons_of_mem a hx))]

lemma length_filter_ne_of_nodup (x : AgentId) :
    ∀ (l : List AgentId), l.Nodup → x ∈ l →
      (l.filter (fun a => a ≠ x)).length = l.length - 1 := by
  intro l
  induction l with
  | nil => intro _ hx; simp at hx
  | cons y t ih =>
    intro hnd hx
    rcases List.nodup_cons.mp hnd with ⟨hyt, hndt⟩
    rcases List.mem_cons.mp hx with h1 | h2
    · subst h1
      have hft : t.filter (fun a => a ≠ x) = t := by
        apply List.filter_eq_self.mpr
        intro a ha
        simp only [decide_eq_true_eq]
        intro heq
        subst heq
        exact hyt ha
      have hhead : (x :: t).filter (fun a => a ≠ x) = t := by
        rw [List.filter_cons, if_neg (by simp : ¬ (decide (x ≠ x) = true))]
        exact hft
      rw [hhead, List.length_cons]
      omega
    · have hyx : y ≠ x := fun he => hyt (he ▸ h2)
      have hlen := ih hndt h2
      have hpos : 0 < t.length := List.length_pos.mpr (List.ne_nil_of_mem h2)
      have hd : decide (y ≠ x) = true := decide_eq_true hyx
      rw [List.filter_cons, if_pos hd, List.length_cons, List.length_cons, hlen]
      omega

lemma voteResultUpdate_subset (selfId : AgentId) (selfRole : Role)
    (votedOut : Option AgentId) (gameEnded : Bool) (votes : List (AgentId × Nat))
    (aliveR : AgentId → Bool) (worlds : List WorldS) :
    ∀ w ∈ voteResultUpdate selfId selfRole votedOut gameEnded votes aliveR worlds,
      w ∈ worlds := by
  intro w hw
  rcases votedOut with _ | vo
  · simpa only [voteResultUpdate] using hw
  · simp only [voteResultUpdate] at hw
    by_cases h1 : vo = selfId ∧ selfRole = Role.good
    · rw [if_pos h1] at hw
      by_cases h2 : worlds = []
      · rw [if_pos h2] at hw; exact hw
      · rw [if_neg h2] at hw
        by_cases h3 : progressiveFilter aliveR votes worlds = []
        · rw [if_pos h3] at hw; exact hw
        · rw [if_neg h3] at hw
          exact progressiveFilter_subset aliveR votes worlds w hw
    · rw [if_neg h1] at hw
      by_cases hg : gameEnded = false
      · rw [if_pos hg] at hw
        by_cases h2 : worlds = []
        · rw [if_pos h2] at hw; exact hw
        · rw [if_neg h2] at hw
          by_cases h3 : worlds.filter (fun w => lookupRole w vo = some Role.good) = []
          · rw [if_pos h3] at hw; exact hw
          · rw [if_neg h3] at hw
            exact (List.mem_filter.mp hw).1
      · rw [if_neg hg] at hw; exact hw

lemma voteResultUpdate_length_le (selfId : AgentId) (selfRole : Role)
    (votedOut : Option AgentId) (gameEnded : Bool) (votes : List (AgentId × Nat))
    (aliveR : AgentId → Bool) (worlds : List WorldS) :
    (voteResultUpdate selfId selfRole votedOut gameEnded votes aliveR worlds).length ≤
      worlds.length := by
  rcases votedOut with _ | vo
  · simp only [voteResultUpdate]
    exact le_refl _
  · simp only [voteResultUpdate]
    by_cases h1 : vo = selfId ∧ selfRole = Role.good
    · rw [if_pos h1]
      by_cases h2 : worlds = []
      · rw [if_pos h2]
      · rw [if_neg h2]
        by_cases h3 : progressiveFilter aliveR votes worlds = []
        · rw [if_pos h3]
        · rw [if_neg h3]
          exact progressiveFilter_length_le aliveR votes worlds
    · rw [if_neg h1]
      by_cases hg : gameEnded = false
      · rw [if_pos hg]
        by_cases h2 : worlds = []
        · rw [if_pos h2]
        · rw [if_neg h2]
          by_cases h3 : worlds.filter (fun w => lookupRole w vo = some Role.good) = []
          · rw [if_pos h3]
          · rw [if_neg h3]
            exact List.length_filter_le _ _
      · rw [if_neg hg]

lemma voteResultUpdate_ne_nil (selfId : AgentId) (selfRole : Role)
    (votedOut : Option AgentId) (gameEnded : Bool) (votes : List (AgentId × Nat))
    (aliveR : AgentId → Bool) (worlds : List WorldS) (hw : worlds ≠ []) :
    voteResultUpdate selfId selfRole votedOut gameEnded votes aliveR worlds ≠ [] := by
  rcases votedOut with _ | vo
  · simp only [voteResultUpdate]
    exact hw
  · simp only [voteResultUpdate]
    by_cases h1 : vo = selfId ∧ selfRole = Role.good
    · rw [if_pos h1, if_neg hw]
      by_cases h3 : progressiveFilter aliveR votes worlds = []
      · rw [if_pos h3]; exact hw
      · rw [if_neg h3]; exact h3
    · rw [if_neg h1]
      by_cases hg : gameEnded = false
      · rw [if_pos hg, if_neg hw]
        by_cases h3 : worlds.filter (fun w => lookupRole w vo = some Role.good) = []
        · rw [if_pos h3]; exact hw
        · rw [if_neg h3]; exact h3
      · rw [if_neg hg]; exact hw

lemma hardUpdateWorlds_subset (selfId : AgentId) (selfRole : Role) (ev : Event)
    (aliveR : AgentId → Bool) (worlds : List WorldS) :
    ∀ w ∈ hardUpdateWorlds selfId selfRole ev aliveR worlds, w ∈ worlds := by
  intro w hw
  unfold hardUpdateWorlds at hw
  split at hw
  · unfold killUpdate at hw
    by_cases h2 : worlds = []
    · rw [if_pos h2] at hw; exact hw
    · rw [if_neg h2] at hw
      exact (List.mem_filter.mp hw).1
  · exact voteResultUpdate_subset _ _ _ _ _ _ _ w hw
  · exact hw

lemma hardUpdateWorlds_length_le (selfId : AgentId) (selfRole : Role) (ev : Event)
    (aliveR : AgentId → Bool) (worlds : List WorldS) :
    (hardUpdateWorlds selfId selfRole ev aliveR worlds).length ≤ worlds.length := by
  unfold hardUpdateWorlds
  split
  · unfold killUpdate
    by_cases h2 : worlds = []
    · rw [if_pos h2]
    · rw [if_neg h2]
      exact List.length_filter_le _ _
  · exact voteResultUpdate_length_le _ _ _ _ _ _ _
  · exact le_refl _

lemma secondaryElimination_subset (deadIds : List AgentId) (worlds : List WorldS) :
    ∀ w ∈ secondaryElimination deadIds worlds, w ∈ worlds := by
  intro w hw
  unfold secondaryElimination at hw
  by_cases h2 : worlds = []
  · rw [if_pos h2] at hw; exact hw
  · rw [if_neg h2] at hw
    by_cases h3 : worlds.filter (fun w => !(allDeadBad deadIds w)) = []
    · rw [if_pos h3] at hw; exact hw
    · rw [if_neg h3] at hw
      exact (List.mem_filter.mp hw).1

/-- Claim C1, amended: across every FACT-branch belief update (kill, enter,
vote_result, report, sabo) the size of the worlds set is non-increasing, and
the vote_result eliminations never leave a non-empty worlds set empty (the
pre-elimination set is retained whenever filtering would empty it).  The
kill elimination, however, carries no emptiness guard, so the original
claim that no FACT elimination ever empties the set fails there (see the
counterexample theorem). -/
theorem c1_fact_update_monotone (selfId : AgentId) (selfRole : Role) (ev : Event)
    (aliveR : AgentId → Bool) (worlds : List WorldS) (sus : List (AgentId × ℚ)) :
    ((updateBelief selfId selfRole (mkMemoryItem ev SourceT.observation none)
        aliveR worlds sus).1.length ≤ worlds.length)
  ∧ (ev.action = ActionT.voteResult → worlds ≠ [] →
      (updateBelief selfId selfRole (mkMemoryItem ev SourceT.observation none)
        aliveR worlds sus).1 ≠ []) := by
  constructor
  · by_cases h2 : worlds = []
    · simp [updateBelief, h2]
    · simp only [updateBelief, mkMemoryItem, MemoryItem.certainty,
        determineInitialCertainty, if_neg h2]
      exact hardUpdateWorlds_length_le selfId selfRole ev aliveR worlds
  · intro hact h2
    simp only [updateBelief, mkMemoryItem, MemoryItem.certainty,
      determineInitialCertainty, if_neg h2]
    show hardUpdateWorlds selfId selfRole ev aliveR worlds ≠ []
    unfold hardUpdateWorlds
    rw [hact]
    exact voteResultUpdate_ne_nil selfId selfRole ev.votedOutId ev.gameEnded
      ev.votes aliveR worlds h2

/-- Claim C1 counterexample: a FACT kill elimination can leave the worlds
set empty.  With the single-world belief state in which the killer a is
good, the kill branch discards every world and does not retain the
pre-elimination set, contradicting the claim as stated. -/
theorem c1_kill_empties_counterexample :
    (updateBelief "w" Role.good (mkMemoryItem cexKillEvent SourceT.observation none)
        exAliveNone cexKillWorlds []).1 = []
  ∧ cexKillWorlds ≠ [] := ⟨by decide, by decide⟩

/-- Witness for c1_fact_update_monotone at the concrete vote_result input
cexVoteEvent over the belief state exWs. -/
theorem c1_fact_update_monotone_witness :
    (updateBelief "me" Role.good (mkMemoryItem cexVoteEvent SourceT.observation none)
        exAlive exWs []).1 ≠ [] :=
  (c1_fact_update_monotone "me" Role.good cexVoteEvent exAlive exWs []).2 rfl (by decide)

/-- Claim C2, amended: when a good agent processes a FACT vote_result whose
voted_out_id is its own id, the engine iterates the per-candidate vote tally
(not the voters who cast ballots): for every tally entry with a positive
count whose id resolves to an alive agent it progressively discards the
worlds in which that id is good; the worlds list is reassigned once after
the loop, and only when the filtering kept at least one world, so the
pre-filter set is retained rather than an empty one. -/
theorem c2_self_voted_out_tally (selfId : AgentId) (ev : Event)
    (aliveR : AgentId → Bool) (worlds : List WorldS) (sus : List (AgentId × ℚ))
    (hact : ev.action = ActionT.voteResult) (hvo : ev.votedOutId = some selfId) :
    ((updateBelief selfId Role.good (mkMemoryItem ev SourceT.observation none)
        aliveR worlds sus).1 =
      if worlds.filter (survivesTally aliveR ev.votes) = [] then worlds
      else worlds.filter (survivesTally aliveR ev.votes))
  ∧ (worlds ≠ [] →
      (updateBelief selfId Role.good (mkMemoryItem ev SourceT.observation none)
        aliveR worlds sus).1 ≠ []) := by
  constructor
  · by_cases h2 : worlds = []
    · subst h2
      simp [updateBelief]
    · simp only [updateBelief, mkMemoryItem, MemoryItem.certainty,
        determineInitialCertainty, if_neg h2]
      show hardUpdateWorlds selfId Role.good ev aliveR worlds = _
      unfold hardUpdateWorlds
      rw [hact, hvo]
      simp only [voteResultUpdate]
      rw [if_pos ⟨trivial, trivial⟩, if_neg h2, progressiveFilter_eq_filter]
  · intro h2
    simp only [updateBelief, mkMemoryItem, MemoryItem.certainty,
      determineInitialCertainty, if_neg h2]
    show hardUpdateWorlds selfId Role.good ev aliveR worlds ≠ []
    unfold hardUpdateWorlds
    rw [hact]
    exact voteResultUpdate_ne_nil selfId Role.good ev.votedOutId ev.gameEnded
      ev.votes aliveR worlds h2

/-- Claim C2 counterexample: with the tally me maps to 2 and c maps to 1,
produced by the ballots of the voters a and b (who voted for me) and me (who
voted for c), the engine filters by the tally candidate c and keeps exactly
the world where c is bad; the per-voter rule stated by the claim (filter by
the alive ballot-casting voters a and b, with early stop and retention)
would retain the whole pre-filter set instead.  The two results differ, so
the claim as stated is false on the code. -/
theorem c2_tally_vs_voters_counterexample :
    (updateBelief "me" Role.good (mkMemoryItem cexVoteEvent SourceT.observation none)
        exAlive exWs []).1 = [wwC]
  ∧ claimVoterElim cexBallots exAlive exWs = exWs
  ∧ ([wwC] : List WorldS) ≠ exWs := ⟨by decide, by decide, by decide⟩

/-- Witness for c2_self_voted_out_tally at the concrete input cexVoteEvent
over the belief state exWs. -/
theorem c2_self_voted_out_tally_witness :
    (updateBelief "me" Role.good (mkMemoryItem cexVoteEvent SourceT.observation none)
        exAlive exWs []).1 =
      (if exWs.filter (survivesTally exAlive cexVoteEvent.votes) = [] then exWs
       else exWs.filter (survivesTally exAlive cexVoteEvent.votes)) :=
  (c2_self_voted_out_tally "me" cexVoteEvent exAlive exWs [] rfl rfl).1

/-- Claim C4: when an agent processes a FACT vote_result in which someone
other than itself was voted out and game_ended is false, it discards every
world in which the voted-out agent is bad (the worlds being total role
assignments), unless doing so would empty the worlds set, in which case the
prior set is retained unchanged. -/
theorem c4_other_voted_out (selfId : AgentId) (selfRole : Role) (ev : Event)
    (vo : AgentId) (aliveR : AgentId → Bool) (worlds : List WorldS)
    (sus : List (AgentId × ℚ)) (hact : ev.action = ActionT.voteResult)
    (hvo : ev.votedOutId = some vo) (hne : vo ≠ selfId) (hge : ev.gameEnded = false)
    (htotal : ∀ w ∈ worlds, lookupRole w vo ≠ none) :
    (updateBelief selfId selfRole (mkMemoryItem ev SourceT.observation none)
        aliveR worlds sus).1 =
      if worlds.filter (fun w => ¬ lookupRole w vo = some Role.bad) = [] then worlds
      else worlds.filter (fun w => ¬ lookupRole w vo = some Role.bad) := by
  have hfilter : worlds.filter (fun w => lookupRole w vo = some Role.good) =
      worlds.filter (fun w => ¬ lookupRole w vo = some Role.bad) := by
    apply List.filter_congr
    intro w hw
    cases hlw : lookupRole w vo with
    | none => exact absurd hlw (htotal w hw)
    | some r => cases r <;> simp
  by_cases h2 : worlds = []
  · subst h2
    simp [updateBelief]
  · simp only [updateBelief, mkMemoryItem, MemoryItem.certainty,
      determineInitialCertainty, if_neg h2]
    show hardUpdateWorlds selfId selfRole ev aliveR worlds = _
    unfold hardUpdateWorlds
    rw [hact, hvo]
    simp only [voteResultUpdate]
    have hcond : ¬ (vo = selfId ∧ selfRole = Role.good) := fun hc => hne hc.1
    rw [if_neg hcond, if_pos hge, if_neg h2, hfilter]

/-- Witness for c4_other_voted_out: the agent x processes the vote_result
that ejected me with game_ended false. -/
theorem c4_other_voted_out_witness :
    (updateBelief "x" Role.good (mkMemoryItem cexVoteEvent SourceT.observation none)
        exAlive exWs []).1 =
      (if exWs.filter (fun w => ¬ lookupRole w "me" = some Role.bad) = [] then exWs
       else exWs.filter (fun w => ¬ lookupRole w "me" = some Role.bad)) :=
  c4_other_voted_out "x" Role.good cexVoteEvent "me" exAlive exWs [] rfl rfl
    (by decide) rfl (by decide)

/-- Claim C5: after belief initialization over a roster with distinct ids of
which k are bad, an agent of role good holds exactly C(n-1, k) worlds, each
arising from one size-k sublist of the other ids mapped to bad with everyone
else (self included) good (for k = 0 this is the single all-good world), and
an agent of role bad holds exactly one world, the ground-truth assignment. -/
theorem c5_init_cardinality (roster : List RosterEntry) (ag : RosterEntry)
    (hnd : (rosterIds roster).Nodup) (hmem : ag ∈ roster) :
    (ag.role = Role.good →
      (initWorldsFor roster ag).length =
        Nat.choose (roster.length - 1) (badIdsOf roster).length)
  ∧ (ag.role = Role.good → ∀ w ∈ initWorldsFor roster ag,
      ∃ comb ∈ List.sublistsLen (badIdsOf roster).length
          ((rosterIds roster).filter (fun aid => aid ≠ ag.id)),
        w = goodWorldOf (rosterIds roster) ag.id comb)
  ∧ (ag.role = Role.bad → initWorldsFor roster ag = [groundTruthWorld roster]) := by
  have hm : ag.id ∈ rosterIds roster := List.mem_map_of_mem (fun a => a.id) hmem
  have hoth : ((rosterIds roster).filter (fun aid => aid ≠ ag.id)).length
      = roster.length - 1 := by
    rw [length_filter_ne_of_nodup ag.id (rosterIds roster) hnd hm]
    rw [rosterIds, List.length_map]
  refine ⟨?_, ?_, ?_⟩
  · intro hg
    simp only [initWorldsFor, hg]
    by_cases hcase : 0 < (badIdsOf roster).length ∧
        (badIdsOf roster).length ≤
          ((rosterIds roster).filter (fun aid => aid ≠ ag.id)).length
    · rw [if_pos hcase, List.length_map, List.length_sublistsLen, hoth]
    · rw [if_neg hcase]
      by_cases hzero : (badIdsOf roster).length = 0
      · rw [if_pos hzero, hzero, Nat.choose_zero_right]
        rfl
      · rw [if_neg hzero, List.length_nil]
        have h1 : ¬ (badIdsOf roster).length ≤
            ((rosterIds roster).filter (fun aid => aid ≠ ag.id)).length := by
          intro hle
          exact hcase ⟨Nat.pos_of_ne_zero hzero, hle⟩
        symm
        apply Nat.choose_eq_zero_of_lt
        omega
  · intro hg w hw
    simp only [initWorldsFor, hg] at hw
    by_cases hcase : 0 < (badIdsOf roster).length ∧
        (badIdsOf roster).length ≤
          ((rosterIds roster).filter (fun aid => aid ≠ ag.id)).length
    · rw [if_pos hcase] at hw
      rcases List.mem_map.mp hw with ⟨comb, hcomb, rfl⟩
      exact ⟨comb, hcomb, rfl⟩
    · rw [if_neg hcase] at hw
      by_cases hzero : (badIdsOf roster).length = 0
      · rw [if_pos hzero] at hw
        rcases List.mem_singleton.mp hw with rfl
        refine ⟨[], ?_, ?_⟩
        · rw [hzero, List.sublistsLen_zero]
          exact List.mem_singleton.mpr rfl
        · unfold goodWorldOf
          apply List.map_congr_left
          intro aid _
          simp [ite_self]
      · rw [if_neg hzero] at hw
        simp at hw
  · intro hb
    simp only [initWorldsFor, hb]

/-- Witness for c5_init_cardinality at the concrete roster0: the good agent
g1 starts with C(3, 1) worlds. -/
theorem c5_init_cardinality_witness :
    (initWorldsFor roster0 ⟨"g1", Role.good⟩).length =
      Nat.choose (roster0.length - 1) (badIdsOf roster0).length :=
  (c5_init_cardinality roster0 ⟨"g1", Role.good⟩ (by decide) (by decide)).1 rfl

/-- Claim C6: own-role consistency is an invariant: every world produced by
belief initialization maps the owning agent id to its actual role; belief
updates (the FACT eliminations in particular) and the meeting secondary
elimination pass only ever remove worlds, never alter or add them (each
retained world is one of the previous worlds), so the property is preserved
after every update. -/
theorem c6_own_role_invariant (roster : List RosterEntry) (ag : RosterEntry)
    (hmem : ag ∈ roster) (selfId : AgentId) (selfRole : Role) (mi : MemoryItem)
    (aliveR : AgentId → Bool) (worlds : List WorldS) (sus : List (AgentId × ℚ))
    (deadIds : List AgentId) :
    (∀ w ∈ initWorldsFor roster ag, lookupRole w ag.id = some ag.role)
  ∧ (∀ w ∈ (updateBelief selfId selfRole mi aliveR worlds sus).1, w ∈ worlds)
  ∧ (∀ w ∈ secondaryElimination deadIds worlds, w ∈ worlds) := by
  have hm : ag.id ∈ rosterIds roster := List.mem_map_of_mem (fun a => a.id) hmem
  refine ⟨?_, ?_, secondaryElimination_subset deadIds worlds⟩
  · intro w hw
    cases hrole : ag.role with
    | good =>
      simp only [initWorldsFor, hrole] at hw
      by_cases hcase : 0 < (badIdsOf roster).length ∧
          (badIdsOf roster).length ≤
            ((rosterIds roster).filter (fun aid => aid ≠ ag.id)).length
      · rw [if_pos hcase] at hw
        rcases List.mem_map.mp hw with ⟨comb, _, rfl⟩
        unfold goodWorldOf lookupRole
        rw [assocLookup_map_pair _ (rosterIds roster) ag.id hm]
        simp
      · rw [if_neg hcase] at hw
        by_cases hzero : (badIdsOf roster).length = 0
        · rw [if_pos hzero] at hw
          rcases List.mem_singleton.mp hw with rfl
          unfold lookupRole
          rw [assocLookup_map_pair (fun _ => Role.good) (rosterIds roster) ag.id hm]
        · rw [if_neg hzero] at hw
          simp at hw
    | bad =>
      simp only [initWorldsFor, hrole] at hw
      rcases List.mem_singleton.mp hw with rfl
      have hbad : ag.id ∈ badIdsOf roster := by
        unfold badIdsOf
        apply List.mem_map_of_mem (fun a : RosterEntry => a.id)
        rw [List.mem_filter]
        refine ⟨hmem, ?_⟩
        rw [hrole]
        decide
      unfold groundTruthWorld lookupRole
      rw [assocLookup_map_pair _ (rosterIds roster) ag.id hm]
      simp [hbad]
  · intro w hw
    by_cases h2 : worlds = []
    · simp only [updateBelief, if_pos h2] at hw
      exact hw
    · cases hc : mi.certainty with
      | FACT =>
        simp only [updateBelief, if_neg h2, hc] at hw
        exact hardUpdateWorlds_subset selfId selfRole mi.event aliveR worlds w hw
      | UNCERTAIN =>
        simp only [updateBelief, if_neg h2, hc] at hw
        exact hw
      | VERIFIED =>
        simp only [updateBelief, if_neg h2, hc] at hw
        exact hw
      | DISPROVED =>
        simp only [updateBelief, if_neg h2, hc] at hw
        exact hw

/-- Helper: the soft update either leaves the suspicion map unchanged or is
one updateSus call with a non-negative delta. -/
lemma softUpdateSus_cases (selfId : AgentId) (ev : Event) (sus : List (AgentId × ℚ)) :
    softUpdateSus selfId ev sus = sus ∨
      ∃ aid δ, 0 ≤ δ ∧ softUpdateSus selfId ev sus = updateSus sus aid δ := by
  unfold softUpdateSus
  split
  · split
    · split
      · split
        · right
          exact ⟨_, 1 / 10, by norm_num, rfl⟩
        · left; rfl
      · left; rfl
    · left; rfl
  · split
    · right
      exact ⟨_, 2 / 10, by norm_num, rfl⟩
    · left; rfl
  · left; rfl

/-- Claim C7: the dispatch pipeline delivers MemoryItems per visibility:
private reaches only the actor as an observation; witnessed reaches the
actor and every listed witness as observations; public reaches every
currently-alive agent, the actor as an observation and everyone else as
hearsay sourced at the actor; and certainty is derived deterministically,
observation giving FACT and hearsay giving UNCERTAIN. -/
theorem c7_dispatch_visibility (roster : List AgentR) (actor : AgentId)
    (witnesses : List AgentId) (hactor : inRoster roster actor = true)
    (hwit : ∀ w ∈ witnesses, inRoster roster w = true) :
    (dispatchDeliveries roster Vis.priv actor witnesses =
      [⟨actor, SourceT.observation, none⟩])
  ∧ (dispatchDeliveries roster Vis.witnessed actor witnesses =
      ⟨actor, SourceT.observation, none⟩ ::
        witnesses.map (fun w => ⟨w, SourceT.observation, none⟩))
  ∧ (∀ a ∈ roster, a.alive = true →
      (if a.id = actor then Delivery.mk a.id SourceT.observation none
       else Delivery.mk a.id SourceT.hearsay (some actor)) ∈
        dispatchDeliveries roster Vis.pub actor witnesses)
  ∧ (∀ d ∈ dispatchDeliveries roster Vis.pub actor witnesses,
      ∃ a, a ∈ roster ∧ a.alive = true ∧
        d = (if a.id = actor then Delivery.mk a.id SourceT.observation none
             else Delivery.mk a.id SourceT.hearsay (some actor)))
  ∧ determineInitialCertainty SourceT.observation = Certainty.FACT
  ∧ determineInitialCertainty SourceT.hearsay = Certainty.UNCERTAIN := by
  refine ⟨?_, ?_, ?_, ?_, rfl, rfl⟩
  · simp only [dispatchDeliveries]
    rw [if_pos hactor]
  · simp only [dispatchDeliveries]
    rw [if_pos hactor, filterMap_resolve (fun w => inRoster roster w)
      (fun w => Delivery.mk w SourceT.observation none) witnesses hwit]
    rfl
  · intro a ha hal
    simp only [dispatchDeliveries]
    apply List.mem_map.mpr
    exact ⟨a, List.mem_filter.mpr ⟨ha, hal⟩, rfl⟩
  · intro d hd
    simp only [dispatchDeliveries] at hd
    rcases List.mem_map.mp hd with ⟨a, haf, rfl⟩
    rcases List.mem_filter.mp haf with ⟨ha, hal⟩
    exact ⟨a, ha, hal, rfl⟩

/-- Witness for c7_dispatch_visibility on the concrete roster rosterR0 with
actor g1 and witness list g2. -/
theorem c7_dispatch_visibility_witness :
    dispatchDeliveries rosterR0 Vis.priv "g1" ["g2"] =
      [⟨"g1", SourceT.observation, none⟩] :=
  (c7_dispatch_visibility rosterR0 "g1" ["g2"] (by decide) (by decide)).1

/-- Claim C8: under the UNCERTAIN branch, a hearsay say event whose
statement has predicate role and value bad raises the suspicion of the
statement subject by exactly 0.1 (the subject being tracked and distinct
from the receiver); a hearsay sabo event raises the suspicion of the actor
by exactly 0.2 (same provisos, which hold for every dispatched hearsay
item); every adjustment leaves all suspicion scores non-negative; no
UNCERTAIN update eliminates worlds; and suspicion never decreases. -/
theorem c8_soft_belief (selfId : AgentId) (selfRole : Role) (aliveR : AgentId → Bool) :
    (∀ (ev : Event) (st : Statement) (worlds : List WorldS)
        (sus : List (AgentId × ℚ)) (v : ℚ),
      worlds ≠ [] → ev.action = ActionT.say → ev.statement = some st →
      st.predicate = "role" → st.value = "bad" → st.subject ≠ selfId →
      susLookup sus st.subject = some v → 0 ≤ v →
      susLookup ((updateBelief selfId selfRole
          (mkMemoryItem ev SourceT.hearsay (some ev.actor))
          aliveR worlds sus).2) st.subject = some (v + 1 / 10))
  ∧ (∀ (ev : Event) (worlds : List WorldS) (sus : List (AgentId × ℚ)) (v : ℚ),
      worlds ≠ [] → ev.action = ActionT.sabo → ev.actor ≠ selfId →
      susLookup sus ev.actor = some v → 0 ≤ v →
      susLookup ((updateBelief selfId selfRole
          (mkMemoryItem ev SourceT.hearsay (some ev.actor))
          aliveR worlds sus).2) ev.actor = some (v + 2 / 10))
  ∧ (∀ (ev : Event) (sid : Option AgentId) (worlds : List WorldS)
        (sus : List (AgentId × ℚ)),
      (∀ p ∈ sus, 0 ≤ p.2) →
      ∀ p ∈ (updateBelief selfId selfRole (mkMemoryItem ev SourceT.hearsay sid)
          aliveR worlds sus).2, 0 ≤ p.2)
  ∧ (∀ (ev : Event) (sid : Option AgentId) (worlds : List WorldS)
        (sus : List (AgentId × ℚ)),
      (updateBelief selfId selfRole (mkMemoryItem ev SourceT.hearsay sid)
          aliveR worlds sus).1 = worlds)
  ∧ (∀ (ev : Event) (sid : Option AgentId) (worlds : List WorldS)
        (sus : List (AgentId × ℚ)) (aid : AgentId) (v : ℚ),
      susLookup sus aid = some v →
      ∃ v2, susLookup ((updateBelief selfId selfRole
          (mkMemoryItem ev SourceT.hearsay sid) aliveR worlds sus).2) aid =
            some v2 ∧ v ≤ v2) := by
  refine ⟨?_, ?_, ?_, ?_, ?_⟩
  · intro ev st worlds sus v hw hact hst hpred hval hsubj hsus hv
    simp only [updateBelief, mkMemoryItem, MemoryItem.certainty,
      determineInitialCertainty, if_neg hw]
    show susLookup (softUpdateSus selfId ev sus) st.subject = _
    unfold softUpdateSus
    rw [hact]
    show susLookup (match ev.statement with
      | some st =>
        if st.predicate = "role" ∧ st.value = "bad" then
          if (susLookup sus st.subject).isSome ∧ st.subject ≠ selfId then
            updateSus sus st.subject (1 / 10)
          else sus
        else sus
      | none => sus) st.subject = _
    rw [hst]
    show susLookup (if st.predicate = "role" ∧ st.value = "bad" then
        if (susLookup sus st.subject).isSome ∧ st.subject ≠ selfId then
          updateSus sus st.subject (1 / 10)
        else sus
      else sus) st.subject = _
    rw [if_pos ⟨hpred, hval⟩, if_pos ⟨by rw [hsus]; rfl, hsubj⟩,
      susLookup_updateSus_self sus st.subject (1 / 10) v hsus,
      max_eq_right (by linarith)]
  · intro ev worlds sus v hw hact hne hsus hv
    simp only [updateBelief, mkMemoryItem, MemoryItem.certainty,
      determineInitialCertainty, if_neg hw]
    show susLookup (softUpdateSus selfId ev sus) ev.actor = _
    unfold softUpdateSus
    rw [hact]
    show susLookup (if (susLookup sus ev.actor).isSome ∧ ev.actor ≠ selfId then
        updateSus sus ev.actor (2 / 10)
      else sus) ev.actor = _
    rw [if_pos ⟨by rw [hsus]; rfl, hne⟩,
      susLookup_updateSus_self sus ev.actor (2 / 10) v hsus,
      max_eq_right (by linarith)]
  · intro ev sid worlds sus hnn p hp
    by_cases hw : worlds = []
    · simp only [updateBelief, if_pos hw] at hp
      exact hnn p hp
    · simp only [updateBelief, mkMemoryItem, MemoryItem.certainty,
        determineInitialCertainty, if_neg hw] at hp
      rcases softUpdateSus_cases selfId ev sus with hcase | ⟨aid, δ, _, hcase⟩
      · rw [hcase] at hp
        exact hnn p hp
      · rw [hcase] at hp
        exact updateSus_nonneg sus aid δ hnn p hp
  · intro ev sid worlds sus
    by_cases hw : worlds = []
    · simp only [updateBelief, if_pos hw]
    · simp only [updateBelief, mkMemoryItem, MemoryItem.certainty,
        determineInitialCertainty, if_neg hw]
  · intro ev sid worlds sus aid v hsus
    by_cases hw : worlds = []
    · simp only [updateBelief, if_pos hw]
      exact ⟨v, hsus, le_refl v⟩
    · simp only [updateBelief, mkMemoryItem, MemoryItem.certainty,
        determineInitialCertainty, if_neg hw]
      show ∃ v2, susLookup (softUpdateSus selfId ev sus) aid = some v2 ∧ v ≤ v2
      rcases softUpdateSus_cases selfId ev sus with hcase | ⟨aid2, δ, hδ, hcase⟩
      · rw [hcase]
        exact ⟨v, hsus, le_refl v⟩
      · rw [hcase]
        exact susLookup_updateSus_mono sus aid2 aid δ v hδ hsus

/-- Witness for c8_soft_belief: the NPC me processes the hearsay say event
sayEv0 accusing y, whose tracked suspicion is 0, and reads back 0 + 0.1. -/
theorem c8_soft_belief_witness :
    susLookup ((updateBelief "me" Role.good
        (mkMemoryItem sayEv0 SourceT.hearsay (some sayEv0.actor))
        exAliveNone [wwA] sus0).2) st0.subject = some (0 + 1 / 10) :=
  (c8_soft_belief "me" Role.good exAliveNone).1 sayEv0 st0 [wwA] sus0 0
    (by decide) rfl rfl rfl rfl (by decide) rfl (by norm_num)

/-- Witness for c6_own_role_invariant: the single world of the bad agent b1
of roster0 maps b1 to bad. -/
theorem c6_own_role_invariant_witness :
    lookupRole (groundTruthWorld roster0) "b1" = some Role.bad :=
  (c6_own_role_invariant roster0 ⟨"b1", Role.bad⟩ (by decide) "z" Role.good
      (mkMemoryItem cexKillEvent SourceT.observation none) exAliveNone [] [] []).1
    (groundTruthWorld roster0) (by decide)

/-- Helper: the sabo/kill/enter visibility computation never yields public. -/
lemma witnessVisibility_ne_pub (witnesses : List AgentId) :
    witnessVisibility witnesses ≠ Vis.pub := by
  unfold witnessVisibility
  by_cases hw : witnesses = []
  · rw [if_pos hw]
    decide
  · rw [if_neg hw]
    decide

/-- Claim C9: an invalid action returns no event and leaves the simulation
state (agent locations, agent states, event history, belief states)
unchanged: a dead actor for any action; an enter targeting a room that does
not exist or is not directly connected to the current location; a kill
whose target is missing or already dead.  The embedding is a total
function, so no exception propagates past the action boundary. -/
theorem c9_invalid_actions (s : SimState) (actorId : AgentId) :
    (∀ (req : ActReq) (a : SimAgent),
      s.agents.find? (fun x => x.id = actorId) = some a → a.alive = false →
      applyAction s actorId req = (none, s))
  ∧ (∀ (target : String) (a : SimAgent),
      s.agents.find? (fun x => x.id = actorId) = some a → a.alive = true →
      s.rooms.contains target = false →
      applyAction s actorId (ActReq.enter target) = (none, s))
  ∧ (∀ (target loc : String) (a : SimAgent),
      s.agents.find? (fun x => x.id = actorId) = some a → a.alive = true →
      s.rooms.contains target = true → a.location = some loc →
      s.conns.contains (loc, target) = false →
      applyAction s actorId (ActReq.enter target) = (none, s))
  ∧ (∀ (targetId : AgentId) (a : SimAgent),
      s.agents.find? (fun x => x.id = actorId) = some a → a.alive = true →
      s.agents.find? (fun x => x.id = targetId) = none →
      applyAction s actorId (ActReq.kill targetId) = (none, s))
  ∧ (∀ (targetId : AgentId) (a t : SimAgent),
      s.agents.find? (fun x => x.id = actorId) = some a → a.alive = true →
      s.agents.find? (fun x => x.id = targetId) = some t → t.alive = false →
      applyAction s actorId (ActReq.kill targetId) = (none, s)) := by
  refine ⟨?_, ?_, ?_, ?_, ?_⟩
  · intro req a hfind hdead
    simp only [applyAction, hfind]
    rw [if_pos hdead]
  · intro target a hfind hal hroom
    simp only [applyAction, hfind]
    rw [if_neg (by rw [hal]; decide), if_pos hroom]
  · intro target loc a hfind hal hroom hloc hconn
    simp only [applyAction, hfind]
    rw [if_neg (by rw [hal]; decide),
      if_neg (by rw [hroom]; decide)]
    simp only [hloc]
    rw [if_pos hconn]
  · intro targetId a hfind hal htfind
    simp only [applyAction, hfind]
    rw [if_neg (by rw [hal]; decide)]
    simp only [htfind]
  · intro targetId a t hfind hal htfind htdead
    simp only [applyAction, hfind]
    rw [if_neg (by rw [hal]; decide)]
    simp only [htfind]
    rw [if_pos htdead]

/-- Witness for c9_invalid_actions: the dead agent d1 attempting a sabo
yields no event and the state sAct is unchanged. -/
theorem c9_invalid_actions_witness :
    applyAction sAct "d1" ActReq.sabo = (none, sAct) :=
  (c9_invalid_actions sAct "d1").1 ActReq.sabo
    (mkSA "d1" Role.good false (some "A") []) rfl rfl

/-- Claim C10: the sabo action layer produces only witnessed or private
events, never public ones; every delivery the dispatch pipeline makes for a
non-public sabo event is observation-tagged, hence FACT; and processing a
FACT sabo item leaves both the suspicion map and the worlds unchanged, so
the UNCERTAIN-branch 0.2 increment for hearsay sabo is never triggered by a
dispatched sabo event. -/
theorem c10_sabo_never_public (s : SimState) (actorId : AgentId)
    (witnesses : List AgentId) (roster : List AgentR) (selfId : AgentId)
    (selfRole : Role) (aliveR : AgentId → Bool) :
    witnessVisibility witnesses ≠ Vis.pub
  ∧ (∀ (ev : Event) (s2 : SimState),
      applyAction s actorId ActReq.sabo = (some ev, s2) → ev.visibility ≠ Vis.pub)
  ∧ (∀ d ∈ dispatchDeliveries roster (witnessVisibility witnesses) actorId witnesses,
      d.sourceType = SourceT.observation ∧
        determineInitialCertainty d.sourceType = Certainty.FACT)
  ∧ (∀ (ev : Event) (sid : Option AgentId) (worlds : List WorldS)
        (sus : List (AgentId × ℚ)), ev.action = ActionT.sabo →
      (updateBelief selfId selfRole (mkMemoryItem ev SourceT.observation sid)
          aliveR worlds sus).2 = sus ∧
      (updateBelief selfId selfRole (mkMemoryItem ev SourceT.observation sid)
          aliveR worlds sus).1 = worlds) := by
  refine ⟨witnessVisibility_ne_pub witnesses, ?_, ?_, ?_⟩
  · intro ev s2 happly
    cases hfind : s.agents.find? (fun x => x.id = actorId) with
    | none =>
      simp only [applyAction, hfind] at happly
      simp at happly
    | some a =>
      by_cases hdead : a.alive = false
      · simp only [applyAction, hfind] at happly
        rw [if_pos hdead] at happly
        simp at happly
      · simp only [applyAction, hfind] at happly
        rw [if_neg hdead] at happly
        simp only [saboDo, createEvent, mkEvent] at happly
        injection happly with h1 h2
        injection h1 with h3
        rw [← h3]
        exact witnessVisibility_ne_pub _
  · intro d hd
    have hobs : d.sourceType = SourceT.observation := by
      revert hd
      unfold witnessVisibility
      by_cases hw : witnesses = []
      · rw [if_pos hw]
        simp only [dispatchDeliveries]
        intro hd
        by_cases hr : inRoster roster actorId
        · rw [if_pos hr] at hd
          rcases List.mem_singleton.mp hd with rfl
          rfl
        · rw [if_neg hr] at hd
          simp at hd
      · rw [if_neg hw]
        simp only [dispatchDeliveries]
        intro hd
        rcases List.mem_append.mp hd with hl | hr
        · by_cases hin : inRoster roster actorId
          · rw [if_pos hin] at hl
            rcases List.mem_singleton.mp hl with rfl
            rfl
          · rw [if_neg hin] at hl
            simp at hl
        · rcases List.mem_filterMap.mp hr with ⟨w, _, heq⟩
          by_cases hin : inRoster roster w
          · rw [if_pos hin] at heq
            injection heq with heq2
            rw [← heq2]
          · rw [if_neg hin] at heq
            simp at heq
    refine ⟨hobs, ?_⟩
    rw [hobs]
    rfl
  · intro ev sid worlds sus hact
    constructor
    · by_cases hw : worlds = []
      · simp [updateBelief, hw]
      · simp [updateBelief, mkMemoryItem, MemoryItem.certainty,
          determineInitialCertainty, hw]
    · by_cases hw : worlds = []
      · simp [updateBelief, hw]
      · simp [updateBelief, mkMemoryItem, MemoryItem.certainty,
          determineInitialCertainty, hw, hardUpdateWorlds, hact]

/-- Witness for c10_sabo_never_public: processing the concrete observation
sabo item saboEv0 leaves the suspicion map sus0 unchanged. -/
theorem c10_sabo_never_public_witness :
    (updateBelief "me" Role.good (mkMemoryItem saboEv0 SourceT.observation none)
        exAliveNone [wwA] sus0).2 = sus0 :=
  ((c10_sabo_never_public sAct "p1" [] rosterR0 "me" Role.good exAliveNone).2.2.2
    saboEv0 none [wwA] sus0 rfl).1

/-- Claim C3, amended: at meeting resolution with a unique vote winner found
in the roster, that agent is marked dead first; a vote_result Event with
visibility public is constructed carrying voted_out_id, the full votes
tally, and game_ended read from the cached win/loss result (World.game_over
only tests whether the cached result is set; the win/loss conditions are
not re-evaluated after the death); the event is handed directly — not
through the public-visibility dispatch rules of the pipeline — as an
observation-tagged FACT MemoryItem to exactly the agents that are alive or
just-ejected, so the ejected agent also updates its own beliefs. -/
theorem c3_meeting_resolution (s : SimState) (reporterId vo : AgentId)
    (votes : List (AgentId × Nat)) (a0 : SimAgent)
    (hfind : s.agents.find? (fun a => a.id = vo) = some a0) :
    ((resolveMeeting s reporterId votes (some vo)).2.1.map Event.action =
        some ActionT.voteResult
      ∧ (resolveMeeting s reporterId votes (some vo)).2.1.map Event.visibility =
        some Vis.pub
      ∧ (resolveMeeting s reporterId votes (some vo)).2.1.map Event.actor =
        some reporterId
      ∧ (resolveMeeting s reporterId votes (some vo)).2.1.map Event.votedOutId =
        some (some vo)
      ∧ (resolveMeeting s reporterId votes (some vo)).2.1.map Event.votes =
        some votes
      ∧ (resolveMeeting s reporterId votes (some vo)).2.1.map Event.gameEnded =
        some s.result.isSome)
  ∧ (∀ a ∈ markAgentDead s.agents vo, a.id = vo → a.alive = false)
  ∧ (∀ d ∈ (resolveMeeting s reporterId votes (some vo)).2.2,
      d.sourceType = SourceT.observation ∧
      determineInitialCertainty d.sourceType = Certainty.FACT ∧
      ∃ a ∈ markAgentDead s.agents vo,
        d.recipient = a.id ∧ (a.alive = true ∨ a.id = vo))
  ∧ (∀ a ∈ markAgentDead s.agents vo, (a.alive = true ∨ a.id = vo) →
      Delivery.mk a.id SourceT.observation none ∈
        (resolveMeeting s reporterId votes (some vo)).2.2)
  ∧ (∃ d ∈ (resolveMeeting s reporterId votes (some vo)).2.2, d.recipient = vo) := by
  have hred2 : (resolveMeeting s reporterId votes (some vo)).2.2 =
      ((markAgentDead s.agents vo).filter
        (fun a => a.alive = true ∨ a.id = vo)).map
          (fun a => Delivery.mk a.id SourceT.observation none) := by
    simp only [resolveMeeting, hfind]
  refine ⟨?_, ?_, ?_, ?_, ?_⟩
  · refine ⟨?_, ?_, ?_, ?_, ?_, ?_⟩
    all_goals (simp only [resolveMeeting, hfind, Option.map_some]; rfl)
  · intro a ha hid
    rcases List.mem_map.mp ha with ⟨b, _, rfl⟩
    by_cases hb : b.id = vo
    · rw [if_pos hb]
    · rw [if_neg hb]
      rw [if_neg hb] at hid
      exact absurd hid hb
  · intro d hd
    rw [hred2] at hd
    rcases List.mem_map.mp hd with ⟨a, haf, rfl⟩
    rcases List.mem_filter.mp haf with ⟨ha1, hpred⟩
    refine ⟨rfl, rfl, a, ha1, rfl, ?_⟩
    exact of_decide_eq_true hpred
  · intro a ha hpred
    rw [hred2]
    apply List.mem_map.mpr
    refine ⟨a, List.mem_filter.mpr ⟨ha, decide_eq_true hpred⟩, rfl⟩
  · have hmem0 : a0 ∈ s.agents := List.mem_of_find?_eq_some hfind
    have hid0 : a0.id = vo := by
      have := List.find?_some hfind
      exact of_decide_eq_true this
    have hmarked : (if a0.id = vo then { a0 with alive := false } else a0) ∈
        markAgentDead s.agents vo :=
      List.mem_map_of_mem _ hmem0
    rw [if_pos hid0] at hmarked
    refine ⟨Delivery.mk ({ a0 with alive := false } : SimAgent).id
      SourceT.observation none, ?_, hid0⟩
    rw [hred2]
    apply List.mem_map.mpr
    refine ⟨{ a0 with alive := false }, ?_, rfl⟩
    apply List.mem_filter.mpr
    refine ⟨hmarked, decide_eq_true (Or.inr hid0)⟩

/-- Claim C3 counterexample: resolving the sMeet meeting (three good agents
and the single bad agent b1, with the cached result unset) on the unanimous
tally against b1 produces cexResolveEvent with game_ended = false even
though the win/loss check evaluated after marking b1 dead reports the good
agents have won; and the deliveries are observation items for the three
alive agents and the ejected b1, which differs from what the section 4.2
public dispatch would produce (hearsay for the non-actors, nothing for the
dead b1).  This refutes both the game_ended conjunct and the dispatched-
through-the-pipeline conjunct of the claim as stated. -/
theorem c3_meeting_resolution_counterexample :
    (resolveMeeting sMeet "g1" [("b1", 3)] (some "b1")).2.1 = some cexResolveEvent
  ∧ cexResolveEvent.gameEnded = false
  ∧ checkGameOver (markAgentDead sMeet.agents "b1") none = some "Good agents win"
  ∧ (resolveMeeting sMeet "g1" [("b1", 3)] (some "b1")).2.2 ≠
      dispatchDeliveries (toAgentR (markAgentDead sMeet.agents "b1"))
        Vis.pub "g1" [] :=
  ⟨by decide, rfl, by decide, by decide⟩

/-- Witness for c3_meeting_resolution: in the concrete resolution of the
sMeet meeting the ejected agent b1 receives a delivery. -/
theorem c3_meeting_resolution_witness :
    ∃ d ∈ (resolveMeeting sMeet "g1" [("b1", 3)] (some "b1")).2.2,
      d.recipient = "b1" :=
  (c3_meeting_resolution sMeet "g1" "b1" [("b1", 3)]
      (mkSA "b1" Role.bad true (some "E") (initWorldsFor roster0 ⟨"b1", Role.bad⟩))
      rfl).2.2.2.2

end DelGame
